import Mathlib

/-!
Verification development for the aetycoon property-class library.

The Python source defines descriptor-style datastore properties
(derived, transform, pickle, current-domain and choice properties) plus a
pretty-printing module.  We embed the relevant operations shallowly:
Python attribute state becomes explicit record state, raised exceptions
become `Except` errors, and Python dict/list subscripting becomes
`Option`-returning lookups.
-/

namespace Aetycoon

/-- The exceptions that the embedded operations can raise. -/
inductive PyErr where
  | keyError
  | typeError
  | indexError
  | badValueError
  | derivedPropertyError
  | invalidDomainError (msg : String)
  deriving DecidableEq

/-- Lookup in a Python dict built from a list of key/value pairs in
insertion order: a later binding of the same key overrides an earlier
one (`dict(pairs)` semantics).  `none` models a `KeyError`. -/
def pyLookup {K V : Type} [DecidableEq K] : List (K × V) → K → Option V
  | [], _ => none
  | (k, v) :: rest, key =>
    match pyLookup rest key with
    | some v2 => some v2
    | none => if key = k then some v else none

/-- The list of `(c, i)` pairs produced by
`((c, i) for i, c in enumerate(choices))`, starting the count at `n`. -/
def enumFrom {C : Type} (n : Nat) : List C → List (C × Nat)
  | [] => []
  | c :: cs => (c, n) :: enumFrom (n + 1) cs

/-- Python list subscripting `l[i]`: a negative index counts from the
end; `none` models an `IndexError`. -/
def pyListIndex {C : Type} (l : List C) (i : Int) : Option C :=
  if 0 ≤ i then l.get? i.toNat
  else if (-i).toNat ≤ l.length then l.get? (l.length - (-i).toNat)
  else none

/-- The class-level lookup tables installed by `make_choice_property`.
`ofList choices` is the branch where choices came as a list: the
`INDEX_TO_CHOICE` table is the list itself and `CHOICE_TO_INDEX` is
`dict((c, i) for i, c in enumerate(choices))`.  `ofDict choices` is the
branch where choices came as a dict mapping choices to ints (the pairs
are the dict items in insertion order, so keys are distinct):
`CHOICE_TO_INDEX` is that dict and `INDEX_TO_CHOICE` is
`dict((v, k) for k, v in choices.iteritems())`. -/
inductive ChoiceTables (C : Type) where
  | ofList (choices : List C)
  | ofDict (choices : List (C × Int))

/-- The subscript operation `cls.CHOICE_TO_INDEX[c]`; `none` models the
`KeyError` for a choice absent from the forward table. -/
def CHOICE_TO_INDEX {C : Type} [DecidableEq C] : ChoiceTables C → C → Option Int
  | .ofList choices, c => (pyLookup (enumFrom 0 choices) c).map Int.ofNat
  | .ofDict choices, c => pyLookup choices c

/-- The subscript operation `self.INDEX_TO_CHOICE[index]` where `index`
is the underlying integer value (`none` when the stored value is Python
`None`).  For a list-built table, `l[None]` raises `TypeError` and an
out-of-range int raises `IndexError`; for a dict-built table a missing
key (including `None`, which is never a key since all keys are ints)
raises `KeyError`. -/
def INDEX_TO_CHOICE {C : Type} : ChoiceTables C → Option Int → Except PyErr C
  | .ofList _, none => .error .typeError
  | .ofList choices, some i =>
    match pyListIndex choices i with
    | some c => .ok c
    | none => .error .indexError
  | .ofDict _, none => .error .keyError
  | .ofDict choices, some i =>
    match pyLookup (choices.map Prod.swap) i with
    | some c => .ok c
    | none => .error .keyError

/-- Embeds `ChoiceProperty.__get__`: reads the underlying integer value (via
`super(...).__get__`, which yields `none` when the property is unset
with no default) and translates it through `INDEX_TO_CHOICE`. -/
def choiceGet {C : Type} (t : ChoiceTables C) (stored : Option Int) : Except PyErr C :=
  INDEX_TO_CHOICE t stored

/-- Embeds `ChoiceProperty.__set__` acting on the underlying stored integer:
`c2i` is attempted; on `KeyError` a `BadValueError` is raised and the
stored value is untouched, otherwise the translated index is stored. -/
def choiceSet {C : Type} [DecidableEq C] (t : ChoiceTables C) (v : C)
    (stored : Option Int) : Option PyErr × Option Int :=
  match CHOICE_TO_INDEX t v with
  | none => (some .badValueError, stored)
  | some i => (none, some i)

/-- Embeds `ChoiceProperty.make_value_from_datastore`: `None` is passed through,
any other value is translated through `INDEX_TO_CHOICE`. -/
def make_value_from_datastore {C : Type} (t : ChoiceTables C) :
    Option Int → Except PyErr (Option C)
  | none => .ok none
  | some v => (INDEX_TO_CHOICE t (some v)).map some

/-- The side condition of the dict branch of the round-trip claim: a
dict of choices must map distinct choices to distinct integers for the
inverted table to be a true inverse.  A list-built table needs nothing. -/
def tables_injective {C : Type} : ChoiceTables C → Prop
  | .ofList _ => True
  | .ofDict d => (d.map Prod.snd).Nodup

/-! ### Derived properties -/

/-- Embeds `_DerivedProperty.__get__` on a model instance: apply the derive
function to the instance. -/
def derivedGet {M V : Type} (derive_func : M → V) (m : M) : V :=
  derive_func m

/-- Embeds `_DerivedProperty.__set__`: unconditionally raises
`db.DerivedPropertyError` before touching anything, so the instance
state comes back unchanged. -/
def derivedSet {M V : Type} (m : M) (_v : V) : Option PyErr × M :=
  (some .derivedPropertyError, m)

/-! ### Transform properties -/

/-- The attribute state of a model instance that a `_TransformProperty`
touches: the current value of the source property, and the two cache
attributes `_ORIGINAL<attr>` (the last-seen source value) and `<attr>`
(the transformed output), `none` when the attribute was never set.
`__get__` is the only writer and always sets the two together. -/
structure TransformInstance (V W : Type) where
  sourceVal : V
  origVal : Option V
  transVal : Option W
  deriving DecidableEq

/-- Embeds `_TransformProperty.__get__`: read the cached original (`getattr`
with default `None`), read the current source value, and if they are
equal return the cached transformed attribute (a `none` result models
the `AttributeError` of reading a never-set attribute); otherwise apply
the transform, store both cache attributes and return the result.  The
`Nat` component counts how many times the transform function ran. -/
def transformGet {V W : Type} [DecidableEq V] (transform_func : V → W)
    (m : TransformInstance V W) : Option (W × TransformInstance V W × Nat) :=
  let last_val := m.origVal
  let current_val := m.sourceVal
  if last_val = some current_val then
    match m.transVal with
    | some w => some (w, m, 0)
    | none => none
  else
    let transformed_val := transform_func current_val
    some (transformed_val,
      { m with origVal := some current_val, transVal := some transformed_val }, 1)

/-- Embeds `_TransformProperty.__set__`, which raises `db.DerivedPropertyError`. -/
def transformSet {V W X : Type} (m : TransformInstance V W) (_v : X) :
    Option PyErr × TransformInstance V W :=
  (some .derivedPropertyError, m)

/-! ### CurrentDomainProperty -/

/-- The constructor flags of a `CurrentDomainProperty`. -/
structure CurrentDomainProperty where
  allow_read : Bool
  allow_write : Bool
  deriving DecidableEq

/-- The ambient request environment the property consults:
`os.environ[HTTP_HOST]` and `users.is_current_user_admin()`. -/
structure RequestEnv where
  http_host : String
  user_is_admin : Bool
  deriving DecidableEq

/-- Python truthiness of the assigned value: `None` and the empty
string are falsy. -/
def pyTruthy : Option String → Bool
  | none => false
  | some s => !(s == "")

/-- Embeds `CurrentDomainProperty.__set__`: a falsy value is replaced by the
current request host; a non-empty value differing from the host raises
`InvalidDomainError` unless `allow_read` was set or the user is an
admin; otherwise the value is stored as given. -/
def currentDomainSet (p : CurrentDomainProperty) (env : RequestEnv)
    (value : Option String) : Except PyErr String :=
  match value with
  | none => .ok env.http_host
  | some s =>
    if s = "" then .ok env.http_host
    else if s ≠ env.http_host ∧ p.allow_read = false ∧ env.user_is_admin = false then
      .error (.invalidDomainError ("Domain \x27" ++ env.http_host ++
        "\x27 attempting to illegally access data for domain \x27" ++ s ++ "\x27"))
    else .ok s

/-- Embeds `CurrentDomainProperty.get_value_for_datastore`: the stored value is
returned, except that a value differing from the current request host
raises `InvalidDomainError` unless the user is an admin or `allow_write`
was set.  (The source spells the message with the typo "allegally".) -/
def currentDomainGetValueForDatastore (p : CurrentDomainProperty) (env : RequestEnv)
    (stored : String) : Except PyErr String :=
  if stored ≠ env.http_host ∧ env.user_is_admin = false ∧ p.allow_write = false then
    .error (.invalidDomainError ("Domain \x27" ++ env.http_host ++
      "\x27 attempting to allegally modify data for domain \x27" ++ stored ++ "\x27"))
  else .ok stored

/-! ### PickleProperty.default_value

`default_value` returns `copy.copy(self.default)`.  Since the point of
the method is object identity ("prevents mutable objects such as
dictionaries from being shared across instances"), we model a tiny heap
of mutable objects: object identities are indices into a list of object
values, and `copy.copy` on a mutable container allocates a fresh object
holding the same (shallow) contents. -/

/-- Embeds `copy.copy` applied to the mutable object at reference `r` of heap
`h`: allocate a fresh reference at the end of the heap holding the same
shallow contents.  `none` models a dangling reference (never happens in
the source). -/
def copyCopy {V : Type} (h : List V) (r : Nat) : Option (Nat × List V) :=
  (h.get? r).map (fun v => (h.length, h ++ [v]))

/-- Embeds `PickleProperty.default_value`: `copy.copy` of the stored
`self.default` reference. -/
def pickleDefaultValue {V : Type} (h : List V) (default : Nat) : Option (Nat × List V) :=
  copyCopy h default

/-! ### prettydata

The pretty printer walks nested dict/list/tuple/scalar structures and
yields string fragments; `prettify` flattens the generators.  We embed
the value universe as `PyVal` (dict keys restricted to ints, which are
ordered the way Python sorts them), and each generator as a function
returning the concatenation of the fragments it yields. -/

/-- The universe of values the pretty printer handles. -/
inductive PyVal where
  | int (n : Int)
  | str (s : String)
  | list (elems : List PyVal)
  | tup (elems : List PyVal)
  | dict (entries : List (Int × PyVal))

/-- A run of `n` spaces (the one-space string repeated `n` times). -/
def spaces (n : Nat) : String :=
  String.mk (List.replicate n ' ')

/-- Python `repr` of an int. -/
def pyReprInt (n : Int) : String :=
  toString n

/-- Python `repr` of a plain string: the contents between single
quotes. -/
def pyReprStr (s : String) : String :=
  "\x27" ++ s ++ "\x27"

/-- The comparison `sorted_items.sort(key=lambda x: x[0])` sorts dict
items by key only. -/
def keyLe (a b : Int × PyVal) : Prop :=
  a.1 ≤ b.1

instance : DecidableRel keyLe :=
  fun a b => (inferInstance : Decidable (a.1 ≤ b.1))

instance : IsTotal (Int × PyVal) keyLe :=
  ⟨fun a b => Int.le_total a.1 b.1⟩

instance : IsTrans (Int × PyVal) keyLe :=
  ⟨fun _ _ _ h1 h2 => le_trans h1 h2⟩

mutual

/-- Embeds `pretty_dict`: an empty dict renders as braces; otherwise the items
are sorted ascending by key and rendered one per line, comma-separated,
each prefixed by `indent * nest_level` spaces and its repr-ed key. -/
def pretty_dict (d : List (Int × PyVal)) (indent nest_level : Nat) : String :=
  if d.isEmpty then "\x7b\x7d"
  else
    "\x7b\n" ++
    String.intercalate ",\n"
      (render_dict_items (List.insertionSort keyLe d) indent nest_level) ++
    "\n" ++ spaces (indent * (nest_level - 1)) ++ "\x7d"
termination_by (sizeOf d, 1)
decreasing_by
  have hsz := (List.perm_insertionSort keyLe d).sizeOf_eq_sizeOf
  rw [hsz]
  exact Prod.Lex.right _ (by omega)

/-- The body of the `for k, v in sorted_items` loop of `pretty_dict`:
one rendered fragment per item. -/
def render_dict_items (items : List (Int × PyVal)) (indent nest_level : Nat) :
    List String :=
  match items with
  | [] => []
  | (k, v) :: rest =>
    (spaces (indent * nest_level) ++ pyReprInt k ++ ": " ++
      pretty_merge_value v indent nest_level) ::
    render_dict_items rest indent nest_level
termination_by (sizeOf items, 0)
decreasing_by
  · apply Prod.Lex.left
    have h1 : sizeOf ((k, v) :: rest) = 1 + sizeOf (k, v) + sizeOf rest := by
      simp only [List.cons.sizeOf_spec]
    have h2 : sizeOf (k, v) = 1 + sizeOf k + sizeOf v := by
      simp only [Prod.mk.sizeOf_spec]
    omega
  · apply Prod.Lex.left
    simp only [List.cons.sizeOf_spec]
    omega

/-- Embeds `pretty_list`: empty lists and tuples render as their empty
literal; otherwise the elements are rendered in order, one per line,
comma-separated, between the opening and closing delimiter. -/
def pretty_list (l : List PyVal) ( is_tuple : Bool) (indent nest_level : Nat) :
    String :=
  if l.isEmpty then (if is_tuple then "tuple()" else "[]")
  else
    (if is_tuple then "(\n" else "[\n") ++
    String.intercalate ",\n" (render_list_items l indent nest_level) ++
    "\n" ++ spaces (indent * (nest_level - 1)) ++
    (if is_tuple then ")" else "]")
termination_by (sizeOf l, 1)
decreasing_by
  exact Prod.Lex.right _ (by omega)

/-- The body of the `for v in l` loop of `pretty_list`. -/
def render_list_items (l : List PyVal) (indent nest_level : Nat) : List String :=
  match l with
  | [] => []
  | v :: rest =>
    (spaces (indent * nest_level) ++ pretty_merge_value v indent nest_level) ::
    render_list_items rest indent nest_level
termination_by (sizeOf l, 0)
decreasing_by
  · apply Prod.Lex.left
    simp only [List.cons.sizeOf_spec]
    omega
  · apply Prod.Lex.left
    simp only [List.cons.sizeOf_spec]
    omega

/-- Embeds `_pretty_merge_value`: dispatch on the kind of value, recursing one
nesting level deeper for containers and taking `repr` of scalars. -/
def pretty_merge_value (v : PyVal) (indent nest_level : Nat) : String :=
  match v with
  | .dict d => pretty_dict d indent (nest_level + 1)
  | .list l => pretty_list l false indent (nest_level + 1)
  | .tup l => pretty_list l true indent (nest_level + 1)
  | .str s => pyReprStr s
  | .int n => pyReprInt n
termination_by (sizeOf v, 0)
decreasing_by
  · apply Prod.Lex.left
    simp only [PyVal.dict.sizeOf_spec]
    omega
  · apply Prod.Lex.left
    simp only [PyVal.list.sizeOf_spec]
    omega
  · apply Prod.Lex.left
    simp only [PyVal.tup.sizeOf_spec]
    omega

end

/-- Embeds `prettify`: flatten the generator output of `_pretty_merge_value`
into a single string (the source returns the list of fragments; joined,
it is the printed output). -/
def prettify (data : PyVal) (indent nest_level : Nat) : String :=
  pretty_merge_value data indent nest_level

/-! ### Helper lemmas on `pyLookup` and `enumFrom` -/

theorem pyLookup_enumFrom_of_not_mem {C : Type} [DecidableEq C]
    (choices : List C) (c : C) (hc : c ∉ choices) (n : Nat) :
    pyLookup (enumFrom n choices) c = none := by
  induction choices generalizing n with
  | nil => rfl
  | cons x xs ih =>
    have hcx : c ≠ x := fun he => hc (he ▸ List.mem_cons_self x xs)
    have hxs : c ∉ xs := fun hm => hc (List.mem_cons_of_mem _ hm)
    simp [enumFrom, pyLookup, ih hxs, hcx]

theorem pyLookup_enumFrom_get {C : Type} [DecidableEq C] (choices : List C)
    (hnd : choices.Nodup) (j : Nat) (c : C) (h : choices.get? j = some c)
    (n : Nat) : pyLookup (enumFrom n choices) c = some (n + j) := by
  induction choices generalizing n j with
  | nil => simp at h
  | cons x xs ih =>
    obtain ⟨hx, hxs⟩ := List.nodup_cons.mp hnd
    cases j with
    | zero =>
      have hc : c = x := by simpa using h.symm
      subst hc
      simp [enumFrom, pyLookup, pyLookup_enumFrom_of_not_mem xs c hx (n + 1)]
    | succ j2 =>
      have hrec := ih hxs j2 (by simpa using h) (n + 1)
      simp only [enumFrom, pyLookup, hrec]
      congr 1
      omega

theorem pyLookup_enumFrom_sound {C : Type} [DecidableEq C] (choices : List C)
    (c : C) (n i : Nat) (h : pyLookup (enumFrom n choices) c = some i) :
    ∃ j, i = n + j ∧ choices.get? j = some c := by
  induction choices generalizing n i with
  | nil => simp [enumFrom, pyLookup] at h
  | cons x xs ih =>
    simp only [enumFrom, pyLookup] at h
    cases h1 : pyLookup (enumFrom (n + 1) xs) c with
    | some i0 =>
      rw [h1] at h
      have hii : i0 = i := Option.some.inj h
      obtain ⟨j, hj, hg⟩ := ih (n + 1) i0 h1
      exact ⟨j + 1, by omega, by simpa using hg⟩
    | none =>
      rw [h1] at h
      by_cases hcx : c = x
      · rw [if_pos hcx] at h
        have hni : n = i := Option.some.inj h
        exact ⟨0, by omega, by simp [hcx]⟩
      · rw [if_neg hcx] at h
        exact absurd h (by simp)

theorem pyLookup_swap_none {C : Type} [DecidableEq C] (d : List (C × Int))
    (i : Int) (h : i ∉ d.map Prod.snd) :
    pyLookup (d.map Prod.swap) i = none := by
  induction d with
  | nil => rfl
  | cons p rest ih =>
    obtain ⟨c0, v0⟩ := p
    have h1 : i ∉ rest.map Prod.snd := fun hm => h (by simp [hm])
    have h2 : i ≠ v0 := fun he => h (by simp [he])
    simp [pyLookup, Prod.swap, ih h1, h2]

theorem pyLookup_swap_roundtrip {C : Type} [DecidableEq C] (d : List (C × Int))
    (hinj : (d.map Prod.snd).Nodup) (c : C) (i : Int)
    (h : pyLookup d c = some i) : pyLookup (d.map Prod.swap) i = some c := by
  induction d with
  | nil => simp [pyLookup] at h
  | cons p rest ih =>
    obtain ⟨k0, v0⟩ := p
    have hinj2 : (v0 :: rest.map Prod.snd).Nodup := by simpa using hinj
    obtain ⟨hv0, hrest⟩ := List.nodup_cons.mp hinj2
    simp only [pyLookup] at h
    cases h1 : pyLookup rest c with
    | some i0 =>
      rw [h1] at h
      have hii : i0 = i := Option.some.inj h
      rw [hii] at h1
      have hrec := ih hrest h1
      simp [pyLookup, Prod.swap, hrec]
    | none =>
      rw [h1] at h
      by_cases hck : c = k0
      · rw [if_pos hck] at h
        have hvi : v0 = i := Option.some.inj h
        rw [← hvi]
        have hn := pyLookup_swap_none rest v0 hv0
        simp [pyLookup, Prod.swap, hn, hck]
      · rw [if_neg hck] at h
        exact absurd h (by simp)

theorem pyListIndex_ofNat {C : Type} (l : List C) (j : Nat) :
    pyListIndex l (j : Int) = l.get? j := by
  simp [pyListIndex]

/-! ### Claim theorems -/

/-- C8: reading a DerivedProperty returns the derive function applied to
the model instance, and every attempted assignment raises
`db.DerivedPropertyError`, leaving the instance unchanged. -/
theorem derived_property_get_set {M V : Type} (derive_func : M → V) (m : M) (v : V) :
    derivedGet derive_func m = derive_func m ∧
    derivedSet m v = (some PyErr.derivedPropertyError, m) :=
  ⟨rfl, rfl⟩

/-- C1: reading a TransformProperty is memoized on the source value: if
the cached original equals the current source value, the cached output
is returned without running the transform function (call count 0) and
the instance is unchanged; otherwise the transform runs once on the
current source value, both cache attributes are updated, and the fresh
output is returned. -/
theorem transform_get_memoized {V W : Type} [DecidableEq V] (f : V → W)
    (m : TransformInstance V W) :
    (∀ w, m.origVal = some m.sourceVal → m.transVal = some w →
      transformGet f m = some (w, m, 0)) ∧
    (m.origVal ≠ some m.sourceVal →
      transformGet f m = some (f m.sourceVal,
        { m with origVal := some m.sourceVal,
                 transVal := some (f m.sourceVal) }, 1)) := by
  constructor
  · intro w h1 h2
    simp [transformGet, h1, h2]
  · intro h
    simp [transformGet, h]

/-- Witness for C1 at concrete inputs: a cache hit returns the cached
output without running the transform, and a cache miss computes, caches
and returns the transformed value. -/
theorem transform_get_memoized_witness :
    transformGet (fun n => n + 1)
      (TransformInstance.mk 5 (some 5) (some 6) : TransformInstance Nat Nat) =
      some (6, TransformInstance.mk 5 (some 5) (some 6), 0) ∧
    transformGet (fun n => n + 1)
      (TransformInstance.mk 5 none none : TransformInstance Nat Nat) =
      some (6, TransformInstance.mk 5 (some 5) (some 6), 1) := by
  constructor
  · exact (transform_get_memoized (fun n => n + 1) (TransformInstance.mk 5 (some 5) (some 6))).1
      6 rfl rfl
  · exact (transform_get_memoized (fun n => n + 1) (TransformInstance.mk 5 none none)).2
      (by decide)

/-- C10: ChoiceProperty treats a missing value inconsistently:
`make_value_from_datastore None` returns `None`, but reading the
property with an unset underlying index performs the unguarded lookup
`INDEX_TO_CHOICE[None]` and raises (`TypeError` for list-built tables,
`KeyError` for dict-built ones) instead of returning `None`. -/
theorem choice_none_inconsistency {C : Type} (lchoices : List C)
    (dchoices : List (C × Int)) :
    make_value_from_datastore (ChoiceTables.ofList lchoices) none = Except.ok none ∧
    make_value_from_datastore (ChoiceTables.ofDict dchoices) none = Except.ok none ∧
    choiceGet (ChoiceTables.ofList lchoices) none = Except.error PyErr.typeError ∧
    choiceGet (ChoiceTables.ofDict dchoices) none = Except.error PyErr.keyError :=
  ⟨rfl, rfl, rfl, rfl⟩

/-- C5: setting a ChoiceProperty to a value absent from the forward
table raises `db.BadValueError` and leaves the stored integer index
untouched; setting it to a value present in the table stores that
value's integer code. -/
theorem choice_set_guard {C : Type} [DecidableEq C] (t : ChoiceTables C)
    (v : C) (stored : Option Int) :
    (CHOICE_TO_INDEX t v = none →
      choiceSet t v stored = (some PyErr.badValueError, stored)) ∧
    (∀ i, CHOICE_TO_INDEX t v = some i →
      choiceSet t v stored = (none, some i)) := by
  constructor
  · intro h
    simp [choiceSet, h]
  · intro i h
    simp [choiceSet, h]

/-- Witness for C5 at concrete inputs: an out-of-table value is
rejected with the stored index unchanged, an in-table value stores its
code. -/
theorem choice_set_guard_witness :
    CHOICE_TO_INDEX (ChoiceTables.ofList [10, 20]) (99 : Nat) = none ∧
    choiceSet (ChoiceTables.ofList [10, 20]) (99 : Nat) (some 0) =
      (some PyErr.badValueError, some 0) ∧
    CHOICE_TO_INDEX (ChoiceTables.ofList [10, 20]) (20 : Nat) = some 1 ∧
    choiceSet (ChoiceTables.ofList [10, 20]) (20 : Nat) (some 0) = (none, some 1) := by
  refine ⟨by decide, ?_, by decide, ?_⟩
  · exact (choice_set_guard (ChoiceTables.ofList [10, 20]) 99 (some 0)).1 (by decide)
  · exact (choice_set_guard (ChoiceTables.ofList [10, 20]) 20 (some 0)).2 1 (by decide)

/-- C3: assigning to a CurrentDomainProperty acts as a tenant-isolation
guard: a falsy value stores the current request host; a non-empty value
differing from the host raises `InvalidDomainError` unless `allow_read`
was set or the current user is an admin; otherwise the assigned value
is stored. -/
theorem current_domain_set_guard (p : CurrentDomainProperty) (env : RequestEnv)
    (value : Option String) :
    (pyTruthy value = false →
      currentDomainSet p env value = Except.ok env.http_host) ∧
    (∀ s, value = some s → s ≠ "" → s ≠ env.http_host → p.allow_read = false →
      env.user_is_admin = false →
      currentDomainSet p env value = Except.error (PyErr.invalidDomainError
        ("Domain \x27" ++ env.http_host ++
         "\x27 attempting to illegally access data for domain \x27" ++ s ++ "\x27"))) ∧
    (∀ s, value = some s → s ≠ "" →
      (s = env.http_host ∨ p.allow_read = true ∨ env.user_is_admin = true) →
      currentDomainSet p env value = Except.ok s) := by
  refine ⟨?_, ?_, ?_⟩
  · intro h
    cases value with
    | none => rfl
    | some s =>
      have hs : s = "" := by simpa [pyTruthy] using h
      simp [currentDomainSet, hs]
  · intro s hv hne hneq hread hadmin
    subst hv
    simp [currentDomainSet, hne, hneq, hread, hadmin]
  · intro s hv hne hor
    subst hv
    rcases hor with h1 | h1 | h1 <;> simp [currentDomainSet, hne, h1]

/-- Witness for C3 at concrete inputs: falsy assignment stores the
host, a foreign domain raises, an admin is allowed through. -/
theorem current_domain_set_guard_witness :
    currentDomainSet (CurrentDomainProperty.mk false false)
      (RequestEnv.mk "domain1" false) none = Except.ok "domain1" ∧
    currentDomainSet (CurrentDomainProperty.mk false false)
      (RequestEnv.mk "domain1" false) (some "domain2") =
      Except.error (PyErr.invalidDomainError
        ("Domain \x27" ++ "domain1" ++
         "\x27 attempting to illegally access data for domain \x27" ++ "domain2" ++ "\x27")) ∧
    currentDomainSet (CurrentDomainProperty.mk false false)
      (RequestEnv.mk "domain1" true) (some "domain2") = Except.ok "domain2" := by
  refine ⟨?_, ?_, ?_⟩
  · exact (current_domain_set_guard (CurrentDomainProperty.mk false false)
      (RequestEnv.mk "domain1" false) none).1 rfl
  · exact (current_domain_set_guard (CurrentDomainProperty.mk false false)
      (RequestEnv.mk "domain1" false) (some "domain2")).2.1 "domain2" rfl
      (by decide) (by decide) rfl rfl
  · exact (current_domain_set_guard (CurrentDomainProperty.mk false false)
      (RequestEnv.mk "domain1" true) (some "domain2")).2.2 "domain2" rfl
      (by decide) (Or.inr (Or.inr rfl))

/-- C4: serializing a CurrentDomainProperty raises `InvalidDomainError`
whenever the stored domain differs from the current request host,
unless the current user is an admin or the property allows writes; a
stored value equal to the host is returned unchanged. -/
theorem current_domain_datastore_guard (p : CurrentDomainProperty)
    (env : RequestEnv) (stored : String) :
    (stored ≠ env.http_host → env.user_is_admin = false → p.allow_write = false →
      currentDomainGetValueForDatastore p env stored = Except.error
        (PyErr.invalidDomainError ("Domain \x27" ++ env.http_host ++
          "\x27 attempting to allegally modify data for domain \x27" ++ stored ++ "\x27"))) ∧
    (stored = env.http_host →
      currentDomainGetValueForDatastore p env stored = Except.ok stored) ∧
    ((env.user_is_admin = true ∨ p.allow_write = true) →
      currentDomainGetValueForDatastore p env stored = Except.ok stored) := by
  refine ⟨?_, ?_, ?_⟩
  · intro hneq hadmin hwrite
    simp [currentDomainGetValueForDatastore, hneq, hadmin, hwrite]
  · intro heq
    simp [currentDomainGetValueForDatastore, heq]
  · intro hor
    rcases hor with h1 | h1 <;> simp [currentDomainGetValueForDatastore, h1]

/-- Witness for C4 at concrete inputs: a foreign stored domain raises,
a matching one is returned, `allow_write` lets a foreign one through. -/
theorem current_domain_datastore_guard_witness :
    currentDomainGetValueForDatastore (CurrentDomainProperty.mk false false)
      (RequestEnv.mk "domain2" false) "domain1" = Except.error
      (PyErr.invalidDomainError ("Domain \x27" ++ "domain2" ++
        "\x27 attempting to allegally modify data for domain \x27" ++ "domain1" ++ "\x27")) ∧
    currentDomainGetValueForDatastore (CurrentDomainProperty.mk false false)
      (RequestEnv.mk "domain1" false) "domain1" = Except.ok "domain1" ∧
    currentDomainGetValueForDatastore (CurrentDomainProperty.mk false true)
      (RequestEnv.mk "domain2" false) "domain1" = Except.ok "domain1" := by
  refine ⟨?_, ?_, ?_⟩
  · exact (current_domain_datastore_guard (CurrentDomainProperty.mk false false)
      (RequestEnv.mk "domain2" false) "domain1").1 (by decide) rfl rfl
  · exact (current_domain_datastore_guard (CurrentDomainProperty.mk false false)
      (RequestEnv.mk "domain1" false) "domain1").2.1 rfl
  · exact (current_domain_datastore_guard (CurrentDomainProperty.mk false true)
      (RequestEnv.mk "domain2" false) "domain1").2.2 (Or.inr rfl)

/-- C9: `PickleProperty.default_value` returns a shallow copy of the
configured default: the returned reference is a fresh object distinct
from the default object, the default object is not mutated, the copy
holds the same contents, and a second call returns yet another distinct
object. -/
theorem pickle_default_value_copies {V : Type} (h : List V) (d : Nat) (v : V)
    (hv : h.get? d = some v) :
    pickleDefaultValue h d = some (h.length, h ++ [v]) ∧
    h.length ≠ d ∧
    (h ++ [v]).get? d = some v ∧
    (h ++ [v]).get? h.length = some v ∧
    pickleDefaultValue (h ++ [v]) d = some (h.length + 1, h ++ [v] ++ [v]) ∧
    h.length + 1 ≠ h.length ∧ h.length + 1 ≠ d := by
  have hd : d < h.length := by
    by_contra hge
    rw [List.get?_eq_none.mpr (by omega)] at hv
    exact absurd hv (by simp)
  have hv2 : h[d]? = some v := by
    rw [← List.get?_eq_getElem?]
    exact hv
  have hget : (h ++ [v]).get? d = some v := by
    rw [List.get?_append hd, hv]
  have hget2 : (h ++ [v])[d]? = some v := by
    rw [← List.get?_eq_getElem?]
    exact hget
  refine ⟨?_, by omega, hget, ?_, ?_, by omega, by omega⟩
  · simp [pickleDefaultValue, copyCopy, hv2]
  · exact List.get?_concat_length h v
  · simp [pickleDefaultValue, copyCopy, hget2, List.length_append]

/-- Witness for C9 at a concrete heap: copying the default at reference
0 of a one-object heap. -/
theorem pickle_default_value_copies_witness :
    pickleDefaultValue [7] 0 = some (1, [7, 7]) ∧
    (1 : Nat) ≠ 0 ∧
    ([7, 7] : List Nat).get? 0 = some 7 ∧
    ([7, 7] : List Nat).get? 1 = some 7 ∧
    pickleDefaultValue [7, 7] 0 = some (2, [7, 7, 7]) ∧
    (2 : Nat) ≠ 1 ∧ (2 : Nat) ≠ 0 := by
  have := pickle_default_value_copies [7] 0 7 rfl
  simpa using this

/-- C6: for a list of N distinct choices, the tables implement the
implicit 0..N-1 encoding: `CHOICE_TO_INDEX` maps the element at
position i to the integer i, and `INDEX_TO_CHOICE` (the list itself)
maps i back to the element at position i. -/
theorem make_choice_property_list_tables {C : Type} [DecidableEq C]
    (choices : List C) (hnd : choices.Nodup) (i : Nat) (c : C)
    (h : choices.get? i = some c) :
    CHOICE_TO_INDEX (ChoiceTables.ofList choices) c = some (Int.ofNat i) ∧
    INDEX_TO_CHOICE (ChoiceTables.ofList choices) (some (Int.ofNat i)) =
      Except.ok c := by
  constructor
  · have hl := pyLookup_enumFrom_get choices hnd i c h 0
    simp [CHOICE_TO_INDEX, hl]
  · have h2 : choices[i]? = some c := by
      rw [← List.get?_eq_getElem?]
      exact h
    simp [INDEX_TO_CHOICE, pyListIndex_ofNat, h2]

/-- Witness for C6 at a concrete three-element list of choices. -/
theorem make_choice_property_list_tables_witness :
    ([10, 20, 30] : List Nat).Nodup ∧
    ([10, 20, 30] : List Nat).get? 1 = some 20 ∧
    CHOICE_TO_INDEX (ChoiceTables.ofList [10, 20, 30]) (20 : Nat) =
      some (Int.ofNat 1) ∧
    INDEX_TO_CHOICE (ChoiceTables.ofList [10, 20, 30]) (some (Int.ofNat 1)) =
      Except.ok (20 : Nat) := by
  refine ⟨by decide, by decide, ?_⟩
  exact make_choice_property_list_tables [10, 20, 30] (by decide) 1 20 (by decide)

/-- C2: the choice encoding is a two-way lookup: for every choice in
the forward table (any list-built table, or a dict-built table whose
dict maps distinct choices to distinct integers), translating to the
integer code and back yields the same choice; consequently setting a
ChoiceProperty to an allowed choice and reading it back returns that
choice. -/
theorem choice_encoding_roundtrip {C : Type} [DecidableEq C]
    (t : ChoiceTables C) (hinj : tables_injective t) (c : C) (i : Int)
    (h : CHOICE_TO_INDEX t c = some i) (stored : Option Int) :
    INDEX_TO_CHOICE t (some i) = Except.ok c ∧
    choiceSet t c stored = (none, some i) ∧
    choiceGet t (choiceSet t c stored).2 = Except.ok c := by
  have hread : INDEX_TO_CHOICE t (some i) = Except.ok c := by
    cases t with
    | ofList choices =>
      simp only [CHOICE_TO_INDEX] at h
      cases h0 : pyLookup (enumFrom 0 choices) c with
      | none => rw [h0] at h; exact absurd h (by simp)
      | some i0 =>
        rw [h0] at h
        have hi : i = Int.ofNat i0 := by
          simpa using h.symm
        obtain ⟨j, hj, hg⟩ := pyLookup_enumFrom_sound choices c 0 i0 h0
        have hji : j = i0 := by omega
        subst hji
        rw [hi]
        have hg2 : choices[j]? = some c := by
          rw [← List.get?_eq_getElem?]
          exact hg
        simp [INDEX_TO_CHOICE, pyListIndex_ofNat, hg2]
    | ofDict dchoices =>
      simp only [CHOICE_TO_INDEX] at h
      have hsw := pyLookup_swap_roundtrip dchoices hinj c i h
      simp [INDEX_TO_CHOICE, hsw]
  have hset : choiceSet t c stored = (none, some i) := by
    simp [choiceSet, h]
  refine ⟨hread, hset, ?_⟩
  rw [hset]
  exact hread

/-- Witness for C2: round trip at a concrete list-built table and at a
concrete dict-built table with distinct integer codes. -/
theorem choice_encoding_roundtrip_witness :
    (CHOICE_TO_INDEX (ChoiceTables.ofList [10, 20, 30]) (20 : Nat) = some 1 ∧
      INDEX_TO_CHOICE (ChoiceTables.ofList [10, 20, 30]) (some 1) =
        Except.ok (20 : Nat) ∧
      choiceSet (ChoiceTables.ofList [10, 20, 30]) (20 : Nat) none = (none, some 1) ∧
      choiceGet (ChoiceTables.ofList [10, 20, 30])
        (choiceSet (ChoiceTables.ofList [10, 20, 30]) (20 : Nat) none).2 =
        Except.ok (20 : Nat)) ∧
    ((([(5, 0), (7, 4)] : List (Nat × Int)).map Prod.snd).Nodup ∧
      CHOICE_TO_INDEX (ChoiceTables.ofDict [(5, 0), (7, 4)]) (7 : Nat) = some 4 ∧
      INDEX_TO_CHOICE (ChoiceTables.ofDict [(5, 0), (7, 4)]) (some 4) =
        Except.ok (7 : Nat)) := by
  have hinj2 : tables_injective (ChoiceTables.ofDict ([(5, 0), (7, 4)] : List (Nat × Int))) := by
    show (([(5, 0), (7, 4)] : List (Nat × Int)).map Prod.snd).Nodup
    decide
  refine ⟨⟨by decide, ?_⟩, by decide, by decide, ?_⟩
  · have := choice_encoding_roundtrip (ChoiceTables.ofList [10, 20, 30])
      trivial 20 1 (by decide) none
    exact this
  · exact (choice_encoding_roundtrip (ChoiceTables.ofDict [(5, 0), (7, 4)])
      hinj2 7 4 (by decide) none).1

/-! ### Determinism of the pretty printer -/

theorem pairwise_keyLt_of_sorted_nodup {l : List (Int × PyVal)}
    (hs : List.Sorted keyLe l) (hnd : (l.map Prod.fst).Nodup) :
    l.Pairwise (fun a b => a.1 < b.1) := by
  have hne : l.Pairwise (fun a b => a.1 ≠ b.1) := List.pairwise_map.mp hnd
  exact (hs.and hne).imp (fun h => lt_of_le_of_ne h.1 h.2)

theorem sorted_strict_perm_eq : ∀ {l1 l2 : List (Int × PyVal)},
    l1.Pairwise (fun a b => a.1 < b.1) → l2.Pairwise (fun a b => a.1 < b.1) →
    l1.Perm l2 → l1 = l2 := by
  intro l1
  induction l1 with
  | nil =>
    intro l2 _ _ hp
    exact (hp.symm.eq_nil).symm
  | cons a l1 ih =>
    intro l2 h1 h2 hp
    cases l2 with
    | nil => simp at hp
    | cons b l2 =>
      by_cases hab : a = b
      · subst hab
        have hp2 : l1.Perm l2 := hp.cons_inv
        rw [ih (List.pairwise_cons.mp h1).2 (List.pairwise_cons.mp h2).2 hp2]
      · exfalso
        have ha : a ∈ b :: l2 := hp.mem_iff.mp (List.mem_cons_self a l1)
        have ha2 : a ∈ l2 := by
          rcases List.mem_cons.mp ha with he | hm
          · exact absurd he hab
          · exact hm
        have hb : b ∈ a :: l1 := hp.mem_iff.mpr (List.mem_cons_self b l2)
        have hb2 : b ∈ l1 := by
          rcases List.mem_cons.mp hb with he | hm
          · exact absurd he.symm hab
          · exact hm
        have hlt1 : a.1 < b.1 := (List.pairwise_cons.mp h1).1 b hb2
        have hlt2 : b.1 < a.1 := (List.pairwise_cons.mp h2).1 a ha2
        omega

/-- C7: the pretty printer is deterministic: the entries of a mapping
are emitted sorted in ascending key order, so two mappings holding the
same key/value entries (a permutation of one another, with distinct
keys as in any Python dict) produce character-for-character identical
output from `prettify` regardless of the order the entries were
supplied in. -/
theorem prettify_dict_deterministic (d1 d2 : List (Int × PyVal))
    (indent nest_level : Nat) (hperm : d1.Perm d2)
    (hnd : (d1.map Prod.fst).Nodup) :
    prettify (PyVal.dict d1) indent nest_level =
      prettify (PyVal.dict d2) indent nest_level := by
  have hnd2 : (d2.map Prod.fst).Nodup := ((hperm.map Prod.fst).nodup_iff).mp hnd
  have hsort : List.insertionSort keyLe d1 = List.insertionSort keyLe d2 := by
    apply sorted_strict_perm_eq
    · exact pairwise_keyLt_of_sorted_nodup (List.sorted_insertionSort keyLe d1)
        (((List.perm_insertionSort keyLe d1).map Prod.fst).nodup_iff.mpr hnd)
    · exact pairwise_keyLt_of_sorted_nodup (List.sorted_insertionSort keyLe d2)
        (((List.perm_insertionSort keyLe d2).map Prod.fst).nodup_iff.mpr hnd2)
    · exact (List.perm_insertionSort keyLe d1).trans
        (hperm.trans (List.perm_insertionSort keyLe d2).symm)
  have hempty : d1.isEmpty = d2.isEmpty := by
    have hlen := hperm.length_eq
    cases d1 <;> cases d2 <;> simp_all
  show pretty_merge_value (PyVal.dict d1) indent nest_level =
    pretty_merge_value (PyVal.dict d2) indent nest_level
  rw [pretty_merge_value, pretty_merge_value, pretty_dict, pretty_dict,
    hsort, hempty]

/-- Witness for C7: the same two-entry mapping supplied in two
different orders renders identically. -/
theorem prettify_dict_deterministic_witness :
    ([((2 : Int), PyVal.int 5), (1, PyVal.str "a")].Perm
      [((1 : Int), PyVal.str "a"), (2, PyVal.int 5)]) ∧
    prettify (PyVal.dict [(2, PyVal.int 5), (1, PyVal.str "a")]) 4 0 =
      prettify (PyVal.dict [(1, PyVal.str "a"), (2, PyVal.int 5)]) 4 0 :=
  ⟨List.Perm.swap _ _ _,
   prettify_dict_deterministic _ _ 4 0 (List.Perm.swap _ _ _) (by decide)⟩

end Aetycoon
